import Mathlib

/-!
Shallow embedding of `src/modrover/rover.py` (class `Rover`): covariate bookkeeping,
the learner registry and exploration loop, the local-to-global coefficient projection,
the ensemble filtering step, and the fitted-state guard.  Machine reals (numpy floats)
are modelled as rationals; Python exceptions are modelled with `Option`/`Except` or an
explicit abort flag.  `src/modrover/learner.py`, `synthesizer.py` and `strategies/`
are not under `src/`; the small pieces of `Learner` behaviour the claims depend on are
modelled from the spec and marked as such in their doc comments.
-/

namespace Modrover

/-- Association-list lookup, modelling Python dict key lookup (keys stay unique in all
registries built below; lookup returns the first matching key). -/
def alookup {α β : Type} [DecidableEq α] : List (α × β) → α → Option β
  | [], _ => none
  | p :: ps, a => if p.1 = a then some p.2 else alookup ps a

/-- Configuration slice of `Rover.__init__` (rover.py:17-68) used by the claims:
`col_fixed` (a dict, modelled as an ordered association list to keep Python dict
iteration order), `col_explore` and `explore_param`.  The run starts with
`learners = {}` and `super_learner = None`; those live in the explicit states below.
User `param_specs` are not modelled (the constructor default `param_specs={}`). -/
structure Rover where
  colFixed : List (String × List String)
  colExplore : List String
  exploreParam : String
deriving DecidableEq

/-- Modelled from the spec: the `Learner` class (`src/modrover/learner.py` is not under
`src/`).  Per spec §3 a SubsetModel carries its resolved local variable spec (only the
`explore_param` variable list matters to the claims), an is-fitted flag, an optional
cross-validated performance and optional local coefficients. -/
structure Learner where
  exploreVariables : List String
  hasBeenFit : Bool
  performance : Option ℚ
  optCoefs : Option (List ℚ)
deriving DecidableEq

/-- The list built by `Rover.all_covariates` (rover.py:79-95): the fixed covariate
lists in `col_fixed` iteration order, then `col_explore`. -/
def allCovariatesCompute (r : Rover) : List String :=
  (r.colFixed.map Prod.snd).flatten ++ r.colExplore

/-- Model of `Rover.all_covariates` with its lazy cache (`self._all_covariates`): on a
cache miss the list is computed and stored, on a hit the stored list is returned
unchanged. -/
def allCovariatesAccess (r : Rover) (cache : Option (List String)) :
    List String × Option (List String) :=
  match cache with
  | some v => (v, some v)
  | none => (allCovariatesCompute r, some (allCovariatesCompute r))

/-- Model of `Rover.num_covariates` (rover.py:75-77): the length of `all_covariates`. -/
def numCovariates (r : Rover) : Nat := (allCovariatesCompute r).length

abbrev LearnerID := List Nat
abbrev Registry := List (LearnerID × Learner)

/-- The comprehension `[self.col_explore[i] for i in learner_id]` in `get_learner`
(rover.py:122); `none` models the `IndexError` raised by an out-of-range index. -/
def exploreColumns (r : Rover) (learnerId : LearnerID) : Option (List String) :=
  learnerId.mapM (fun i => r.colExplore[i]?)

/-- The fresh `Learner(...)` constructed by `get_learner` (rover.py:123-139): the
`explore_param` variable list holds the fixed variables of that parameter (empty when the
parameter has none, matching the defaultdict) followed by the explore columns. -/
def freshLearner (r : Rover) (cols : List String) : Learner :=
  { exploreVariables := (alookup r.colFixed r.exploreParam).getD [] ++ cols
    hasBeenFit := false
    performance := none
    optCoefs := none }

/-- Model of `Rover.get_learner` (rover.py:116-139): with `use_cache` true and a registry hit
the cached learner is returned; otherwise a fresh learner is built (failing like the
same `IndexError` from the source when the identity has an out-of-range index). -/
def getLearner (r : Rover) (reg : Registry) (learnerId : LearnerID) (useCache : Bool) :
    Option Learner :=
  match alookup reg learnerId, useCache with
  | some l, true => some l
  | _, _ => (exploreColumns r learnerId).map (freshLearner r)

/-- Model of `Rover.get_learner` seen as a transformer of `self.learners`: the method only
reads the registry, so the returned registry is the input registry. -/
def getLearnerS (r : Rover) (reg : Registry) (learnerId : LearnerID) (useCache : Bool) :
    Option Learner × Registry :=
  (getLearner r reg learnerId useCache, reg)

/-- Model of `self.learners[learner_id] = learner` (rover.py:218): Python dict item assignment
keeps the position of an existing key and appends a new key at the end. -/
def regInsert (reg : Registry) (learnerId : LearnerID) (l : Learner) : Registry :=
  if alookup reg learnerId = none then reg ++ [(learnerId, l)]
  else reg.map (fun p => if p.1 = learnerId then (learnerId, l) else p)

/-- Exploration-phase state: `self.learners` plus, as proof instrumentation, the
number of times `Learner.fit` has been invoked for each identity. -/
structure ExpState where
  reg : Registry
  fitCount : LearnerID → Nat

def initExpState : ExpState := { reg := [], fitCount := fun _ => 0 }

/-- Modelled from the spec: the external Model Fitter reached through `Learner.fit`
(spec §6) — for each identity either a raised exception or a
`(performance, coefficients)` outcome. -/
abbrev FitOracle := LearnerID → Except Unit (ℚ × List ℚ)

/-- Modelled from the spec: the effect of a successful `Learner.fit`
(`src/modrover/learner.py` is not under `src/`) — per spec §3 a successful fit marks
the model fitted and stores its performance and local coefficients. -/
def fitLearner (l : Learner) (p : ℚ) (cs : List ℚ) : Learner :=
  { l with hasBeenFit := true, performance := some p, optCoefs := some cs }

def bump (f : LearnerID → Nat) (learnerId : LearnerID) : LearnerID → Nat :=
  fun j => if j = learnerId then f j + 1 else f j

/-- Model of `Rover._fit_layer` (rover.py:210-218): fit each collected learner in order and
store it in the registry; an exception from `Learner.fit` propagates immediately
(`true` in the result), leaving the remaining learners untouched.  Every
`Learner.fit` invocation, raising or not, is counted. -/
def fitLayerE (fitter : FitOracle) :
    List (LearnerID × Learner) → ExpState → ExpState × Bool
  | [], s => (s, false)
  | (learnerId, l) :: rest, s =>
    match fitter learnerId with
    | .error _ => ({ s with fitCount := bump s.fitCount learnerId }, true)
    | .ok pc =>
      fitLayerE fitter rest
        { reg := regInsert s.reg learnerId (fitLearner l pc.1 pc.2)
          fitCount := bump s.fitCount learnerId }

/-- The collection loop at the top of the while-body of `Rover._explore`
(rover.py:195-200): fetch each learner (cached or fresh) and keep those not yet fit; `none`
models an exception from `get_learner` propagating out of the loop. -/
def collectUnfitted (r : Rover) (reg : Registry) :
    List LearnerID → Option (List (LearnerID × Learner))
  | [] => some []
  | learnerId :: rest =>
    match getLearner r reg learnerId true with
    | none => none
    | some l =>
      match collectUnfitted r reg rest with
      | none => none
      | some t => some (if l.hasBeenFit then t else (learnerId, l) :: t)

/-- One iteration of the while loop of `Rover._explore` for a given layer.  A layer is the
set `curr_ids`, modelled as a duplicate-free list. -/
def processLayer (r : Rover) (fitter : FitOracle) (s : ExpState)
    (layer : List LearnerID) : ExpState × Bool :=
  match collectUnfitted r s.reg layer with
  | none => (s, true)
  | some L => fitLayerE fitter L s

/-- Model of `Rover._explore` (rover.py:177-208) over the sequence of layers the strategy
produces during one run (the Frontier Strategy is external; any run yields some
finite layer sequence, universally quantified in the theorems).  An exception
(`true`) aborts the remaining layers. -/
def exploreRunE (r : Rover) (fitter : FitOracle) :
    List (List LearnerID) → ExpState → ExpState × Bool
  | [], s => (s, false)
  | layer :: rest, s =>
    let res := processLayer r fitter s layer
    if res.2 then res else exploreRunE r fitter rest res.1

/-- Fancy-index assignment `row[idx] = val` applied pairwise, modelling the numpy
statement `row[explore_indices] = opt_coefs[offset:]` in `_learner_coefs_to_global_coefs`. -/
def npSetMany (row : List ℚ) : List (Nat × ℚ) → List ℚ
  | [] => row
  | p :: ps => npSetMany (row.set p.1 p.2) ps

/-- Model of `Rover._learner_coefs_to_global_coefs` (rover.py:297-319):
`offset = num_covariates - len(col_explore)`; a zero row of length `num_covariates`;
`row[:offset] = opt_coefs[:offset]`;
`row[np.array(learner_id) + offset] = opt_coefs[offset:]`. -/
def learnerCoefsToGlobalCoefs (r : Rover) (learnerId : LearnerID)
    (optCoefs : List ℚ) : List ℚ :=
  let offset := numCovariates r - r.colExplore.length
  let row0 := List.replicate (numCovariates r) (0 : ℚ)
  let row1 := optCoefs.take offset ++ row0.drop offset
  npSetMany row1 ((learnerId.map (· + offset)).zip (optCoefs.drop offset))

/-- Python truthiness of the optional performance in
`if learner.performance and learner.opt_coefs is not None` (rover.py:275):
`None` and `0.0` are falsy, every other float is truthy. -/
def pyTruthy (q : Option ℚ) : Bool :=
  match q with
  | none => false
  | some v => if v = 0 then false else true

/-- Model of `Rover._generate_coefficients_matrix` (rover.py:260-295): keep the learners that
pass the truthiness filter, then build one projected coefficient row per kept
identity.  (The local `performances` array of the source is dead: built, never returned.) -/
def generateCoefficientsMatrix (r : Rover) (reg : Registry) :
    List LearnerID × List (List ℚ) :=
  let ids :=
    (reg.filter (fun p => pyTruthy p.2.performance && p.2.optCoefs.isSome)).map Prod.fst
  let rows := ids.map (fun learnerId =>
    match alookup reg learnerId with
    | some l => learnerCoefsToGlobalCoefs r learnerId (l.optCoefs.getD [])
    | none => [])
  (ids, rows)

inductive RoverError where
  | invalidConfiguration
  | notFitted
  | exploreException
deriving DecidableEq

/-- Model of `Rover.fit` (rover.py:141-175) down to the parameter validation in
`_generate_ensemble_coefficients` (rover.py:238-243): `_explore` runs first; an
exception there propagates; only then does ensembling validate
`ratio_cutoff > 1 or max_num_models < 1`.  The weighting downstream of the validation
(`metrics_to_weights` in `src/modrover/synthesizer.py`, not under `src/`) is external
and not needed by any claim; the ok branch returns the filtered identity list that
feeds it. -/
def roverFit (r : Rover) (fitter : FitOracle) (layers : List (List LearnerID))
    (maxNumModels : Int) (ratioCutoff : ℚ) :
    ExpState × Except RoverError (List LearnerID) :=
  let res := exploreRunE r fitter layers initExpState
  if res.2 then (res.1, .error .exploreException)
  else if 1 < ratioCutoff ∨ maxNumModels < 1 then
    (res.1, .error .invalidConfiguration)
  else (res.1, .ok (generateCoefficientsMatrix r res.1.reg).1)

/-- Model of `master_learner_id = tuple(range(self.num_covariates))` in `_create_super_learner`
(rover.py:333). -/
def masterLearnerId (r : Rover) : LearnerID := List.range (numCovariates r)

/-- The fitted-state slice of `Rover`: `super_learner`, `None` until `fit` finishes. -/
structure RoverFitState where
  superLearner : Option Learner

/-- Model of `Rover.check_is_fitted` (rover.py:112-114): `not self.super_learner` is true for
`None` (a `Learner` instance is truthy), so a missing super learner raises. -/
def checkIsFitted (s : RoverFitState) : Except RoverError Unit :=
  match s.superLearner with
  | none => .error .notFitted
  | some _ => .ok ()

/-- Model of `Rover.predict` (rover.py:341-343): guard, then delegate prediction to the
external `predict` capability of the super learner (abstracted as `pred`). -/
def roverPredict (pred : Learner → List ℚ) (s : RoverFitState) :
    Except RoverError (List ℚ) :=
  match checkIsFitted s with
  | .error e => .error e
  | .ok _ =>
    match s.superLearner with
    | some l => .ok (pred l)
    | none => .error .notFitted

/-- A configuration with one fixed covariate and one explorable covariate, the
smallest configuration on which the master identity of `_create_super_learner` is
out of range. -/
def roverFx : Rover :=
  { colFixed := [("mu", ["x"])], colExplore := ["a"], exploreParam := "mu" }

/-- Five explorable covariates and no fixed covariates, the configuration of the
projection example of the spec. -/
def roverAE : Rover :=
  { colFixed := [], colExplore := ["a", "b", "c", "d", "e"], exploreParam := "mu" }

/-- One explorable covariate and no fixed covariates. -/
def roverA : Rover :=
  { colFixed := [], colExplore := ["a"], exploreParam := "mu" }

/-- Two explorable covariates and no fixed covariates. -/
def roverAB : Rover :=
  { colFixed := [], colExplore := ["a", "b"], exploreParam := "mu" }

/-- A fitted learner whose cross-validated performance is exactly `0.0`. -/
def learnerZero : Learner :=
  { exploreVariables := ["a"], hasBeenFit := true
    performance := some 0, optCoefs := some [1] }

/-- An unfit learner, as `get_learner` would freshly create. -/
def learnerBlank : Learner :=
  { exploreVariables := [], hasBeenFit := false, performance := none, optCoefs := none }

/-- A registry holding only the zero-performance learner. -/
def regZero : Registry := [([0], learnerZero)]

/-- A Model Fitter that succeeds on every identity. -/
def fitterOne : FitOracle := fun _ => .ok (1, [1])

/-- A Model Fitter that raises on identity `(0,)` and succeeds elsewhere. -/
def fitterFailZero : FitOracle :=
  fun learnerId => if learnerId = [0] then .error () else .ok (1, [1])

/-- Registry invariant of the exploration loop: every stored learner has been fit,
a stored identity has seen exactly one `Learner.fit` call, and an unstored identity
none. -/
def RegOk (reg : Registry) (cnt : LearnerID → Nat) : Prop :=
  ∀ learnerId : LearnerID,
    (∀ l, alookup reg learnerId = some l →
      l.hasBeenFit = true ∧ cnt learnerId = 1) ∧
    (alookup reg learnerId = none → cnt learnerId = 0)

/-- Claim C7: `all_covariates` is the concatenation of the fixed-covariate lists in
`col_fixed` iteration order followed by `col_explore`, its length is the total
covariate count `num_covariates`, and once computed the cached value is returned
unchanged by every later access. -/
theorem all_covariates_spec (r : Rover) :
    (allCovariatesAccess r none).1 = (r.colFixed.map Prod.snd).flatten ++ r.colExplore ∧
    (allCovariatesAccess r none).1.length = numCovariates r ∧
    ∀ cache, allCovariatesAccess r (allCovariatesAccess r cache).2 =
      ((allCovariatesAccess r cache).1, (allCovariatesAccess r cache).2) := by
  refine ⟨rfl, rfl, ?_⟩
  intro cache
  cases cache <;> rfl

/-- Claim C8: while `super_learner` is `None`, `check_is_fitted` and `predict` raise
`NotFittedError`, and `predict` performs no prediction (its result does not depend
on the prediction capability). -/
theorem predict_not_fitted (pred pred2 : Learner → List ℚ) :
    checkIsFitted { superLearner := none } = .error .notFitted ∧
    roverPredict pred { superLearner := none } = .error .notFitted ∧
    roverPredict pred { superLearner := none } =
      roverPredict pred2 { superLearner := none } :=
  ⟨rfl, rfl, rfl⟩

/-- Claim C9: `get_learner` with `use_cache=False` leaves the registry unchanged, its
result is independent of the registry contents, and it is the fresh learner
construction (never the cached entry). -/
theorem get_learner_uncached_frame (r : Rover) (reg reg2 : Registry)
    (learnerId : LearnerID) :
    (getLearnerS r reg learnerId false).2 = reg ∧
    (getLearnerS r reg learnerId false).1 = (getLearnerS r reg2 learnerId false).1 ∧
    (getLearnerS r reg learnerId false).1 =
      (exploreColumns r learnerId).map (freshLearner r) := by
  refine ⟨rfl, ?_, ?_⟩ <;>
  · unfold getLearnerS getLearner
    cases alookup reg learnerId <;> cases alookup reg2 learnerId <;> rfl

/-- Claim C2 (code bug): with one fixed and one explorable covariate the master
identity built in `_create_super_learner` is `range(num_covariates) = [0, 1]`, not
the full explorable subset `range(len(col_explore)) = [0]`; resolving it in
`get_learner` then fails (the source raises `IndexError` on `col_explore[1]`). -/
theorem master_learner_id_mismatch :
    masterLearnerId roverFx = [0, 1] ∧
    List.range roverFx.colExplore.length = [0] ∧
    masterLearnerId roverFx ≠ List.range roverFx.colExplore.length ∧
    exploreColumns roverFx (masterLearnerId roverFx) = none ∧
    getLearner roverFx [] (masterLearnerId roverFx) false = none := by
  exact ⟨rfl, rfl, by decide, rfl, rfl⟩

theorem lset_getElem?_self (l : List ℚ) (i : Nat) (a : ℚ) (h : i < l.length) :
    (l.set i a)[i]? = some a := by
  induction l generalizing i with
  | nil => simp at h
  | cons b t ih =>
    cases i with
    | zero => simp
    | succ m => simpa using ih m (by simpa using h)

theorem lset_getElem?_ne (l : List ℚ) (i j : Nat) (a : ℚ) (h : i ≠ j) :
    (l.set i a)[j]? = l[j]? := by
  induction l generalizing i j with
  | nil => simp
  | cons b t ih =>
    cases i with
    | zero =>
      cases j with
      | zero => exact absurd rfl h
      | succ m => simp
    | succ k =>
      cases j with
      | zero => simp
      | succ m => simpa using ih k m (fun hx => h (by simp [hx]))

theorem zip_getElem? {α β : Type} (l1 : List α) (l2 : List β) (n : Nat) :
    (l1.zip l2)[n]? = match l1[n]?, l2[n]? with
      | some a, some b => some (a, b)
      | _, _ => none := by
  induction l1 generalizing l2 n with
  | nil => cases l2 <;> cases n <;> simp [List.zip]
  | cons a t ih =>
    cases l2 with
    | nil => cases n <;> simp [List.zip]
    | cons b t2 =>
      cases n with
      | zero => simp
      | succ m => simpa using ih t2 m

theorem npSetMany_length (ps : List (Nat × ℚ)) :
    ∀ row, (npSetMany row ps).length = row.length := by
  induction ps with
  | nil => intro row; rfl
  | cons p t ih =>
    intro row
    rw [npSetMany, ih, List.length_set]

theorem npSetMany_getElem?_not_mem (ps : List (Nat × ℚ)) :
    ∀ (row : List ℚ) (j : Nat), (∀ p ∈ ps, p.1 ≠ j) →
      (npSetMany row ps)[j]? = row[j]? := by
  induction ps with
  | nil => intro row j _; rfl
  | cons p t ih =>
    intro row j h
    rw [npSetMany, ih _ j (fun q hq => h q (List.mem_cons_of_mem _ hq)),
      lset_getElem?_ne _ _ _ _ (h p (List.mem_cons_self _ _))]

theorem npSetMany_getElem?_rank (ps : List (Nat × ℚ)) :
    ∀ (row : List ℚ) (rank j : Nat) (v : ℚ), (ps.map Prod.fst).Nodup →
      ps[rank]? = some (j, v) → j < row.length →
      (npSetMany row ps)[j]? = some v := by
  induction ps with
  | nil => intro row rank j v _ hrank; simp at hrank
  | cons p t ih =>
    intro row rank j v hnd hrank hj
    obtain ⟨hp1, hpt⟩ := List.nodup_cons.mp hnd
    cases rank with
    | zero =>
      simp only [List.getElem?_cons_zero, Option.some.injEq] at hrank
      have hpj : p.1 = j := by rw [hrank]
      have hpv : p.2 = v := by rw [hrank]
      have hside : ∀ q ∈ t, q.1 ≠ j := by
        intro q hq hq1
        apply hp1
        rw [hpj, ← hq1]
        exact List.mem_map_of_mem Prod.fst hq
      rw [npSetMany, npSetMany_getElem?_not_mem t _ j hside, hpj, hpv]
      exact lset_getElem?_self _ _ _ hj
    | succ m =>
      simp only [List.getElem?_cons_succ] at hrank
      rw [npSetMany]
      exact ih _ m j v hpt hrank (by rw [List.length_set]; exact hj)

/-- Claim C1: for every identity (ordered distinct in-range indices into the explore
pool) and local coefficient vector of matching length,
`_learner_coefs_to_global_coefs` returns a vector of length `num_covariates` whose
first `fixed_count` positions copy the local coefficients, whose position
`fixed_count + k` holds `local[fixed_count + rank]` for the index `k` at position
`rank` of the identity, and which is `0` at every explorable position whose index is
not in the identity. -/
theorem learner_coefs_to_global_coefs_spec (r : Rover) (learnerId : LearnerID)
    (optCoefs : List ℚ)
    (hnd : learnerId.Nodup)
    (hrange : ∀ k ∈ learnerId, k < r.colExplore.length)
    (hlen : optCoefs.length
      = (numCovariates r - r.colExplore.length) + learnerId.length) :
    (learnerCoefsToGlobalCoefs r learnerId optCoefs).length = numCovariates r ∧
    (∀ j, j < numCovariates r - r.colExplore.length →
      (learnerCoefsToGlobalCoefs r learnerId optCoefs)[j]? = optCoefs[j]?) ∧
    (∀ rank k, learnerId[rank]? = some k →
      (learnerCoefsToGlobalCoefs r learnerId optCoefs)[
        (numCovariates r - r.colExplore.length) + k]?
        = optCoefs[(numCovariates r - r.colExplore.length) + rank]?) ∧
    (∀ k, k < r.colExplore.length → k ∉ learnerId →
      (learnerCoefsToGlobalCoefs r learnerId optCoefs)[
        (numCovariates r - r.colExplore.length) + k]? = some 0) := by
  have hexp_le : r.colExplore.length ≤ numCovariates r := by
    unfold numCovariates allCovariatesCompute
    rw [List.length_append]
    exact Nat.le_add_left _ _
  set offset := numCovariates r - r.colExplore.length with hoffset
  have hnum : numCovariates r = offset + r.colExplore.length :=
    (Nat.sub_add_cancel hexp_le).symm
  have hoff_le : offset ≤ numCovariates r := Nat.sub_le _ _
  have hcoefs_ge : offset ≤ optCoefs.length := hlen ▸ Nat.le_add_right _ _
  have htake_len : (optCoefs.take offset).length = offset := by
    rw [List.length_take]
    exact min_eq_left hcoefs_ge
  have hrow1_len :
      (optCoefs.take offset
        ++ (List.replicate (numCovariates r) (0 : ℚ)).drop offset).length
        = numCovariates r := by
    rw [List.length_append, htake_len, List.length_drop, List.length_replicate]
    exact Nat.add_sub_cancel' hoff_le
  have hglobal :
      learnerCoefsToGlobalCoefs r learnerId optCoefs
        = npSetMany
            (optCoefs.take offset
              ++ (List.replicate (numCovariates r) (0 : ℚ)).drop offset)
            ((learnerId.map (· + offset)).zip (optCoefs.drop offset)) := rfl
  have hdrop_len : (optCoefs.drop offset).length = learnerId.length := by
    rw [List.length_drop, hlen]
    omega
  refine ⟨?_, ?_, ?_, ?_⟩
  · rw [hglobal, npSetMany_length, hrow1_len]
  · intro j hj
    have hside : ∀ p ∈ (learnerId.map (· + offset)).zip (optCoefs.drop offset),
        p.1 ≠ j := by
      intro p hp
      obtain ⟨k, _, hk2⟩ := List.mem_map.mp (List.of_mem_zip hp).1
      omega
    rw [hglobal, npSetMany_getElem?_not_mem _ _ _ hside, List.getElem?_append,
      if_pos (show j < (optCoefs.take offset).length by rw [htake_len]; exact hj),
      List.getElem?_take, if_pos hj]
  · intro rank k hrank
    have hrank_lt : rank < learnerId.length := (List.getElem?_eq_some.mp hrank).1
    have hkmem : k ∈ learnerId := by
      obtain ⟨hlt, rfl⟩ := List.getElem?_eq_some.mp hrank
      exact List.getElem_mem hlt
    have hk_lt : k < r.colExplore.length := hrange k hkmem
    have hv : ∃ v, optCoefs[offset + rank]? = some v := by
      refine ⟨optCoefs[offset + rank], List.getElem?_eq_getElem ?_⟩
      omega
    obtain ⟨v, hv⟩ := hv
    have hzip : ((learnerId.map (· + offset)).zip (optCoefs.drop offset))[rank]?
        = some (k + offset, v) := by
      rw [zip_getElem?, List.getElem?_map, hrank, List.getElem?_drop, hv]
      rfl
    have hfst : ((learnerId.map (· + offset)).zip (optCoefs.drop offset)).map
        Prod.fst = learnerId.map (· + offset) := by
      apply List.map_fst_zip
      rw [List.length_map, hdrop_len]
    rw [hglobal, Nat.add_comm offset k,
      npSetMany_getElem?_rank _ _ rank (k + offset) v
        (by rw [hfst]; exact hnd.map (fun a b hab => by omega)) hzip
        (by rw [hrow1_len]; omega),
      hv]
  · intro k hk hknmem
    have hside : ∀ p ∈ (learnerId.map (· + offset)).zip (optCoefs.drop offset),
        p.1 ≠ offset + k := by
      intro p hp
      obtain ⟨k2, hk2mem, hk2⟩ := List.mem_map.mp (List.of_mem_zip hp).1
      intro hcontra
      have hk2k : k2 = k := by omega
      exact hknmem (hk2k ▸ hk2mem)
    have hoffk : offset + k - (optCoefs.take offset).length = k := by
      rw [htake_len]
      omega
    rw [hglobal, npSetMany_getElem?_not_mem _ _ _ hside,
      List.getElem?_append_right
        (show (optCoefs.take offset).length ≤ offset + k by rw [htake_len]; omega),
      hoffk, List.getElem?_drop, List.getElem?_replicate, if_pos (by omega)]

/-- Witness for C1: the example given in the spec — five explorable covariates, no fixed
covariates, identity `(0, 1, 3)`, local coefficients `[.1, .2, .4]`. -/
theorem learner_coefs_to_global_coefs_witness :
    (learnerCoefsToGlobalCoefs roverAE [0, 1, 3] [1/10, 2/10, 4/10]).length
      = numCovariates roverAE ∧
    (learnerCoefsToGlobalCoefs roverAE [0, 1, 3] [1/10, 2/10, 4/10])[
      (numCovariates roverAE - roverAE.colExplore.length) + 3]?
      = [(1 : ℚ)/10, 2/10, 4/10][(numCovariates roverAE - roverAE.colExplore.length) + 2]? ∧
    (learnerCoefsToGlobalCoefs roverAE [0, 1, 3] [1/10, 2/10, 4/10])[
      (numCovariates roverAE - roverAE.colExplore.length) + 2]? = some 0 := by
  have h := learner_coefs_to_global_coefs_spec roverAE [0, 1, 3] [1/10, 2/10, 4/10]
    (by decide) (by decide) (by decide)
  exact ⟨h.1, h.2.2.1 2 3 (by decide), h.2.2.2 2 (by decide) (by decide)⟩

theorem alookup_append_none {α β : Type} [DecidableEq α] {xs : List (α × β)}
    (ys : List (α × β)) {a : α} (h : alookup xs a = none) :
    alookup (xs ++ ys) a = alookup ys a := by
  induction xs with
  | nil => rfl
  | cons p t ih =>
    rw [alookup] at h
    by_cases hp : p.1 = a
    · rw [if_pos hp] at h
      exact absurd h (by simp)
    · rw [if_neg hp] at h
      rw [List.cons_append, alookup, if_neg hp]
      exact ih h

theorem alookup_append_some {α β : Type} [DecidableEq α] {xs : List (α × β)}
    (ys : List (α × β)) {a : α} {b : β} (h : alookup xs a = some b) :
    alookup (xs ++ ys) a = some b := by
  induction xs with
  | nil => exact absurd h (by simp [alookup])
  | cons p t ih =>
    rw [alookup] at h
    by_cases hp : p.1 = a
    · rw [if_pos hp] at h
      rw [List.cons_append, alookup, if_pos hp]
      exact h
    · rw [if_neg hp] at h
      rw [List.cons_append, alookup, if_neg hp]
      exact ih h

theorem alookup_map_update_some {reg : Registry} {learnerId : LearnerID} {w : Learner}
    (l : Learner) (h : alookup reg learnerId = some w) :
    alookup (reg.map (fun p => if p.1 = learnerId then (learnerId, l) else p))
      learnerId = some l := by
  induction reg with
  | nil => exact absurd h (by simp [alookup])
  | cons p t ih =>
    rw [alookup] at h
    by_cases hp : p.1 = learnerId
    · rw [List.map_cons, if_pos hp, alookup, if_pos rfl]
    · rw [if_neg hp] at h
      rw [List.map_cons, if_neg hp, alookup, if_neg hp]
      exact ih h

theorem alookup_map_update_ne {reg : Registry} {learnerId other : LearnerID}
    (l : Learner) (h : other ≠ learnerId) :
    alookup (reg.map (fun p => if p.1 = learnerId then (learnerId, l) else p))
      other = alookup reg other := by
  induction reg with
  | nil => rfl
  | cons p t ih =>
    by_cases hp : p.1 = learnerId
    · rw [List.map_cons, if_pos hp, alookup, if_neg (fun hc => h hc.symm), alookup,
        if_neg (fun hc => h (hp ▸ hc).symm)]
      exact ih
    · rw [List.map_cons, if_neg hp, alookup, alookup]
      by_cases hpo : p.1 = other
      · rw [if_pos hpo, if_pos hpo]
      · rw [if_neg hpo, if_neg hpo]
        exact ih

theorem alookup_regInsert_self (reg : Registry) (learnerId : LearnerID) (l : Learner) :
    alookup (regInsert reg learnerId l) learnerId = some l := by
  unfold regInsert
  by_cases h : alookup reg learnerId = none
  · rw [if_pos h, alookup_append_none _ h, alookup, if_pos rfl]
  · rw [if_neg h]
    obtain ⟨w, hw⟩ := Option.ne_none_iff_exists'.mp h
    exact alookup_map_update_some l hw

theorem alookup_regInsert_ne (reg : Registry) (learnerId other : LearnerID)
    (l : Learner) (h : other ≠ learnerId) :
    alookup (regInsert reg learnerId l) other = alookup reg other := by
  unfold regInsert
  by_cases hn : alookup reg learnerId = none
  · rw [if_pos hn]
    cases ho : alookup reg other with
    | none =>
      rw [alookup_append_none _ ho, alookup, if_neg (fun hc => h hc.symm)]
      rfl
    | some w => exact alookup_append_some _ ho
  · rw [if_neg hn]
    exact alookup_map_update_ne l h

theorem regok_count_le_one {reg : Registry} {cnt : LearnerID → Nat}
    (h : RegOk reg cnt) : ∀ learnerId, cnt learnerId ≤ 1 := by
  intro learnerId
  cases hl : alookup reg learnerId with
  | none => rw [(h learnerId).2 hl]; omega
  | some l => rw [((h learnerId).1 l hl).2]

theorem fitLayerE_ok_inv (fitter : FitOracle) :
    ∀ (L : List (LearnerID × Learner)) (s : ExpState), RegOk s.reg s.fitCount →
      (L.map Prod.fst).Nodup → (∀ p ∈ L, alookup s.reg p.1 = none) →
      ((fitLayerE fitter L s).2 = false →
        RegOk (fitLayerE fitter L s).1.reg (fitLayerE fitter L s).1.fitCount) ∧
      ∀ learnerId, (fitLayerE fitter L s).1.fitCount learnerId ≤ 1 := by
  intro L
  induction L with
  | nil =>
    intro s hs _ _
    exact ⟨fun _ => hs, regok_count_le_one hs⟩
  | cons p t ih =>
    intro s hs hnd hfresh
    obtain ⟨pid, pl⟩ := p
    have hnd2 : (pid :: t.map Prod.fst).Nodup := by simpa using hnd
    have hpid_nmem : pid ∉ t.map Prod.fst := (List.nodup_cons.mp hnd2).1
    have hndt : (t.map Prod.fst).Nodup := (List.nodup_cons.mp hnd2).2
    have hpidfresh : alookup s.reg pid = none :=
      hfresh _ (List.mem_cons_self _ _)
    have hcount0 : s.fitCount pid = 0 := (hs pid).2 hpidfresh
    cases hf : fitter pid with
    | error e =>
      simp only [fitLayerE, hf]
      constructor
      · intro hfalse
        exact absurd hfalse (by simp)
      · intro learnerId
        by_cases hid : learnerId = pid
        · subst hid
          simp [bump, hcount0]
        · simp only [bump, if_neg hid]
          exact regok_count_le_one hs learnerId
    | ok pc =>
      have hs1ok : RegOk (regInsert s.reg pid (fitLearner pl pc.1 pc.2))
          (bump s.fitCount pid) := by
        intro learnerId
        by_cases hid : learnerId = pid
        · subst hid
          have hself := alookup_regInsert_self s.reg learnerId
            (fitLearner pl pc.1 pc.2)
          constructor
          · intro l hl
            rw [hself] at hl
            have hle : fitLearner pl pc.1 pc.2 = l := by injection hl
            constructor
            · rw [← hle]; rfl
            · simp [bump, hcount0]
          · intro hnone
            rw [hself] at hnone
            exact absurd hnone (by simp)
        · have heq := alookup_regInsert_ne s.reg pid learnerId
            (fitLearner pl pc.1 pc.2) hid
          constructor
          · intro l hl
            rw [heq] at hl
            have h2 := (hs learnerId).1 l hl
            exact ⟨h2.1, by simp only [bump, if_neg hid]; exact h2.2⟩
          · intro hnone
            rw [heq] at hnone
            simp only [bump, if_neg hid]
            exact (hs learnerId).2 hnone
      have hfresh1 : ∀ q ∈ t,
          alookup (regInsert s.reg pid (fitLearner pl pc.1 pc.2)) q.1 = none := by
        intro q hq
        have hne : q.1 ≠ pid :=
          fun hc => hpid_nmem (hc ▸ List.mem_map_of_mem Prod.fst hq)
        rw [alookup_regInsert_ne s.reg pid q.1 _ hne]
        exact hfresh q (List.mem_cons_of_mem _ hq)
      simp only [fitLayerE, hf]
      exact ih { reg := regInsert s.reg pid (fitLearner pl pc.1 pc.2)
                 fitCount := bump s.fitCount pid } hs1ok hndt hfresh1

theorem collectUnfitted_sound (r : Rover) (reg : Registry)
    (hre : ∀ learnerId l, alookup reg learnerId = some l → l.hasBeenFit = true) :
    ∀ (layer : List LearnerID) (L : List (LearnerID × Learner)),
      collectUnfitted r reg layer = some L →
      List.Sublist (L.map Prod.fst) layer ∧ ∀ p ∈ L, alookup reg p.1 = none := by
  intro layer
  induction layer with
  | nil =>
    intro L hL
    have hLnil : L = [] := by simpa [collectUnfitted] using hL.symm
    subst hLnil
    exact ⟨by simp, by simp⟩
  | cons lid rest ih =>
    intro L hL
    cases hg : getLearner r reg lid true with
    | none => simp [collectUnfitted, hg] at hL
    | some l =>
      cases hc : collectUnfitted r reg rest with
      | none => simp [collectUnfitted, hg, hc] at hL
      | some t =>
        simp only [collectUnfitted, hg, hc, Option.some.injEq] at hL
        obtain ⟨hsub, hfr⟩ := ih t hc
        by_cases hfit : l.hasBeenFit = true
        · rw [if_pos hfit] at hL
          subst hL
          exact ⟨hsub.cons lid, hfr⟩
        · have hlid : alookup reg lid = none := by
            cases hlk : alookup reg lid with
            | none => rfl
            | some w =>
              have hg2 : some w = some l := by
                unfold getLearner at hg
                rw [hlk] at hg
                exact hg
              have hwl : w = l := by injection hg2
              have hfitw := hre lid w hlk
              rw [hwl] at hfitw
              exact absurd hfitw hfit
          rw [if_neg hfit] at hL
          subst hL
          refine ⟨?_, ?_⟩
          · simpa using hsub.cons₂ lid
          · intro q hq
            rcases List.mem_cons.mp hq with hq1 | hq2
            · rw [hq1]
              exact hlid
            · exact hfr q hq2

theorem processLayer_inv (r : Rover) (fitter : FitOracle) (s : ExpState)
    (layer : List LearnerID) (hs : RegOk s.reg s.fitCount) (hnd : layer.Nodup) :
    ((processLayer r fitter s layer).2 = false →
      RegOk (processLayer r fitter s layer).1.reg
        (processLayer r fitter s layer).1.fitCount) ∧
    ∀ learnerId, (processLayer r fitter s layer).1.fitCount learnerId ≤ 1 := by
  unfold processLayer
  cases hc : collectUnfitted r s.reg layer with
  | none =>
    simp only [hc]
    exact ⟨by simp, regok_count_le_one hs⟩
  | some L =>
    simp only [hc]
    have hre : ∀ learnerId l, alookup s.reg learnerId = some l →
        l.hasBeenFit = true :=
      fun learnerId l h => ((hs learnerId).1 l h).1
    obtain ⟨hsub, hfr⟩ := collectUnfitted_sound r s.reg hre layer L hc
    exact fitLayerE_ok_inv fitter L s hs (hsub.nodup hnd) hfr

theorem exploreRunE_counts (r : Rover) (fitter : FitOracle) :
    ∀ (layers : List (List LearnerID)) (s : ExpState), RegOk s.reg s.fitCount →
      (∀ layer ∈ layers, layer.Nodup) →
      ∀ learnerId, (exploreRunE r fitter layers s).1.fitCount learnerId ≤ 1 := by
  intro layers
  induction layers with
  | nil =>
    intro s hs _ learnerId
    exact regok_count_le_one hs learnerId
  | cons layer rest ih =>
    intro s hs hnd learnerId
    have hinv := processLayer_inv r fitter s layer hs
      (hnd layer (List.mem_cons_self _ _))
    simp only [exploreRunE]
    cases hp2 : (processLayer r fitter s layer).2 with
    | true =>
      rw [if_pos rfl]
      exact hinv.2 learnerId
    | false =>
      rw [if_neg (by simp)]
      exact ih (processLayer r fitter s layer).1 (hinv.1 hp2)
        (fun l2 hl2 => hnd l2 (List.mem_cons_of_mem _ hl2)) learnerId

/-- Claim C3: over any sequence of layers produced during one `_explore` run (each
layer duplicate-free, as `curr_ids` is a Python set), every identity sees at most one
`Learner.fit` invocation, even when the same identity appears in several layers;
and re-requesting a cached identity through `get_learner` with `use_cache=True`
returns the stored learner itself, without re-fitting. -/
theorem explore_at_most_once_fit (r : Rover) (fitter : FitOracle)
    (layers : List (List LearnerID)) (hnd : ∀ layer ∈ layers, layer.Nodup) :
    (∀ learnerId,
      (exploreRunE r fitter layers initExpState).1.fitCount learnerId ≤ 1) ∧
    (∀ (reg : Registry) (learnerId : LearnerID) (l : Learner),
      alookup reg learnerId = some l → getLearner r reg learnerId true = some l) := by
  constructor
  · have hinit : RegOk initExpState.reg initExpState.fitCount := by
      intro learnerId
      exact ⟨fun l h => absurd h (by simp [initExpState, alookup]), fun _ => rfl⟩
    exact exploreRunE_counts r fitter layers initExpState hinit hnd
  · intro reg learnerId l h
    unfold getLearner
    rw [h]

/-- Witness for C3: one run whose second layer repeats the identity `(0,)` of the
first layer; its fit count stays at most one, and a cached lookup returns the stored
learner. -/
theorem explore_at_most_once_fit_witness :
    (exploreRunE roverAB fitterOne [[[0]], [[0], [1]]] initExpState).1.fitCount [0]
      ≤ 1 ∧
    getLearner roverAB [([0], learnerZero)] [0] true = some learnerZero := by
  have h := explore_at_most_once_fit roverAB fitterOne [[[0]], [[0], [1]]]
    (by decide)
  exact ⟨h.1 [0], h.2 [([0], learnerZero)] [0] learnerZero (by decide)⟩

theorem alookup_eq_of_mem_nodup (learnerId : LearnerID) (l : Learner) :
    ∀ reg : Registry, (reg.map Prod.fst).Nodup → (learnerId, l) ∈ reg →
      alookup reg learnerId = some l := by
  intro reg
  induction reg with
  | nil => intro _ hmem; simp at hmem
  | cons p t ih =>
    intro hnd hmem
    have hnd2 : (p.1 :: t.map Prod.fst).Nodup := by simpa using hnd
    rcases List.mem_cons.mp hmem with h1 | h2
    · subst h1
      rw [alookup, if_pos rfl]
    · have hne : p.1 ≠ learnerId := by
        intro hc
        apply (List.nodup_cons.mp hnd2).1
        rw [hc]
        exact List.mem_map_of_mem Prod.fst h2
      rw [alookup, if_neg hne]
      exact ih (List.nodup_cons.mp hnd2).2 h2

/-- Claim C4 (amended): a registry entry enters the coefficient matrix of
`_generate_coefficients_matrix` iff its performance is truthy in the Python sense
(non-null and nonzero) and its coefficients are non-null; in particular a learner
whose performance is the number `0.0` is excluded. -/
theorem coefficients_matrix_inclusion (r : Rover) (reg : Registry)
    (learnerId : LearnerID) (l : Learner)
    (hnd : (reg.map Prod.fst).Nodup) (hmem : (learnerId, l) ∈ reg) :
    learnerId ∈ (generateCoefficientsMatrix r reg).1 ↔
      (pyTruthy l.performance = true ∧ l.optCoefs.isSome = true) := by
  have hids : (generateCoefficientsMatrix r reg).1
      = (reg.filter
          (fun p => pyTruthy p.2.performance && p.2.optCoefs.isSome)).map Prod.fst :=
    rfl
  rw [hids]
  constructor
  · intro h
    obtain ⟨p, hp, hp1⟩ := List.mem_map.mp h
    have hpreg : p ∈ reg := (List.mem_filter.mp hp).1
    have hP : (pyTruthy p.2.performance && p.2.optCoefs.isSome) = true :=
      (List.mem_filter.mp hp).2
    have hmem2 : (learnerId, p.2) ∈ reg := by
      rw [← hp1]
      exact hpreg
    have hlook1 : alookup reg learnerId = some p.2 :=
      alookup_eq_of_mem_nodup learnerId p.2 reg hnd hmem2
    have hlook2 : alookup reg learnerId = some l :=
      alookup_eq_of_mem_nodup learnerId l reg hnd hmem
    have hpl : p.2 = l := by
      rw [hlook1] at hlook2
      injection hlook2
    rw [hpl] at hP
    exact ⟨(Bool.and_eq_true _ _ |>.mp hP).1, (Bool.and_eq_true _ _ |>.mp hP).2⟩
  · intro h
    exact List.mem_map.mpr ⟨(learnerId, l),
      List.mem_filter.mpr ⟨hmem, by simp [h.1, h.2]⟩, rfl⟩

/-- Claim C4 counterexample: a fitted learner with non-null performance `0.0` and
non-null coefficients is excluded from the coefficient matrix, though the claim says
such a learner is included. -/
theorem zero_performance_excluded :
    learnerZero.performance ≠ none ∧ learnerZero.optCoefs ≠ none ∧
    [0] ∉ (generateCoefficientsMatrix roverA regZero).1 := by
  decide

/-- Witness for C4 (amended): a learner with truthy performance and non-null
coefficients is included. -/
theorem coefficients_matrix_inclusion_witness :
    [0] ∈ (generateCoefficientsMatrix roverA
      [([0], fitLearner learnerBlank 1 [2])]).1 :=
  (coefficients_matrix_inclusion roverA [([0], fitLearner learnerBlank 1 [2])] [0]
    (fitLearner learnerBlank 1 [2]) (by decide) (by decide)).mpr (by decide)

/-- Claim C5 counterexample: with `ratio_cutoff = 2 > 1` on a one-layer run, `fit`
does raise `InvalidConfigurationError`, but only after the subset `(0,)` has been
fitted once — not before any fitting, as the claim states. -/
theorem fit_validation_after_fitting :
    (roverFit roverA fitterOne [[[0]]] 10 2).2
      = Except.error RoverError.invalidConfiguration ∧
    (roverFit roverA fitterOne [[[0]]] 10 2).1.fitCount [0] = 1 := by
  constructor
  · rfl
  · decide

/-- Claim C5 (amended): invalid ensemble parameters (`ratio_cutoff > 1` or
`max_num_models < 1`) make `fit` raise `InvalidConfigurationError`, but only during
ensembling, after `_explore` has completed: the final state is the full
post-exploration state. -/
theorem fit_config_error_after_explore (r : Rover) (fitter : FitOracle)
    (layers : List (List LearnerID)) (m : Int) (c : ℚ)
    (hok : (exploreRunE r fitter layers initExpState).2 = false)
    (hbad : 1 < c ∨ m < 1) :
    roverFit r fitter layers m c =
      ((exploreRunE r fitter layers initExpState).1,
        Except.error RoverError.invalidConfiguration) := by
  simp only [roverFit]
  rw [hok, if_neg (by simp), if_pos hbad]

/-- Witness for C5 (amended): `ratio_cutoff = 2` on a concrete one-layer run. -/
theorem fit_config_error_after_explore_witness :
    roverFit roverA fitterOne [[[0]]] 10 2 =
      ((exploreRunE roverA fitterOne [[[0]]] initExpState).1,
        Except.error RoverError.invalidConfiguration) :=
  fit_config_error_after_explore roverA fitterOne [[[0]]] 10 2 (by decide) (by decide)

theorem fitLayerE_lookup_not_mem (fitter : FitOracle) :
    ∀ (L : List (LearnerID × Learner)) (s : ExpState) (learnerId : LearnerID),
      learnerId ∉ L.map Prod.fst →
      alookup (fitLayerE fitter L s).1.reg learnerId = alookup s.reg learnerId := by
  intro L
  induction L with
  | nil => intro s learnerId _; rfl
  | cons p t ih =>
    intro s learnerId hn
    obtain ⟨pid, pl⟩ := p
    have hne : learnerId ≠ pid := by
      intro hc
      exact hn (by simp [hc])
    have hnt : learnerId ∉ t.map Prod.fst := fun hc => hn (by simp [hc])
    cases hf : fitter pid with
    | error e =>
      simp only [fitLayerE, hf]
    | ok pc =>
      simp only [fitLayerE, hf]
      rw [ih _ learnerId hnt]
      exact alookup_regInsert_ne s.reg pid learnerId _ hne

theorem fitLayerE_preserve_some (fitter : FitOracle) :
    ∀ (L : List (LearnerID × Learner)) (s : ExpState) (learnerId : LearnerID),
      (alookup s.reg learnerId).isSome = true →
      (alookup (fitLayerE fitter L s).1.reg learnerId).isSome = true := by
  intro L
  induction L with
  | nil => intro s learnerId h; exact h
  | cons p t ih =>
    intro s learnerId h
    obtain ⟨pid, pl⟩ := p
    cases hf : fitter pid with
    | error e =>
      simp only [fitLayerE, hf]
      exact h
    | ok pc =>
      simp only [fitLayerE, hf]
      apply ih
      by_cases hid : learnerId = pid
      · subst hid
        rw [alookup_regInsert_self]
        rfl
      · rw [alookup_regInsert_ne s.reg pid learnerId _ hid]
        exact h

theorem fitLayerE_mem_isSome (fitter : FitOracle) :
    ∀ (L : List (LearnerID × Learner)) (s : ExpState),
      (∀ p ∈ L, (fitter p.1).isOk = true) →
      ∀ p ∈ L, (alookup (fitLayerE fitter L s).1.reg p.1).isSome = true := by
  intro L
  induction L with
  | nil => intro s _ p hp; simp at hp
  | cons hd t ih =>
    intro s hok p hp
    obtain ⟨pid, pl⟩ := hd
    have hpidok : (fitter pid).isOk = true := hok _ (List.mem_cons_self _ _)
    cases hf : fitter pid with
    | error e =>
      rw [hf] at hpidok
      simp [Except.isOk, Except.toBool] at hpidok
    | ok pc =>
      simp only [fitLayerE, hf]
      rcases List.mem_cons.mp hp with h1 | h2
      · subst h1
        apply fitLayerE_preserve_some
        rw [alookup_regInsert_self]
        rfl
      · exact ih _ (fun q hq => hok q (List.mem_cons_of_mem _ hq)) p h2

theorem fitLayerE_append_err (fitter : FitOracle) (qid : LearnerID) (ql : Learner)
    (post : List (LearnerID × Learner)) (hq : (fitter qid).isOk = false) :
    ∀ (pre : List (LearnerID × Learner)) (s : ExpState),
      (∀ p ∈ pre, (fitter p.1).isOk = true) →
      fitLayerE fitter (pre ++ (qid, ql) :: post) s =
        ({ (fitLayerE fitter pre s).1 with
            fitCount := bump (fitLayerE fitter pre s).1.fitCount qid }, true) ∧
      (fitLayerE fitter pre s).2 = false := by
  intro pre
  induction pre with
  | nil =>
    intro s _
    cases hf : fitter qid with
    | error e =>
      constructor
      · simp only [List.nil_append, fitLayerE, hf]
      · rfl
    | ok pc =>
      rw [hf] at hq
      simp [Except.isOk, Except.toBool] at hq
  | cons p t ih =>
    intro s hpre
    obtain ⟨pid, pl⟩ := p
    have hpok : (fitter pid).isOk = true := hpre _ (List.mem_cons_self _ _)
    cases hf : fitter pid with
    | error e =>
      rw [hf] at hpok
      simp [Except.isOk, Except.toBool] at hpok
    | ok pc =>
      have hpre2 : ∀ p ∈ t, (fitter p.1).isOk = true :=
        fun p hp => hpre p (List.mem_cons_of_mem _ hp)
      have hih := ih { reg := regInsert s.reg pid (fitLearner pl pc.1 pc.2)
                       fitCount := bump s.fitCount pid } hpre2
      constructor
      · simp only [List.cons_append, fitLayerE, hf]
        exact hih.1
      · simp only [fitLayerE, hf]
        exact hih.2

/-- Claim C6 (amended): a `Learner.fit` exception inside `_fit_layer` aborts the
remaining fits of the layer and propagates (aborting the run observably): the result
is exactly the state reached after the successful prefix, with the attempted fit of
the failing identity counted, and every identity not in the prefix and not previously
stored stays out of the registry. -/
theorem fit_layer_failure_propagates (fitter : FitOracle)
    (pre : List (LearnerID × Learner)) (qid : LearnerID) (ql : Learner)
    (post : List (LearnerID × Learner)) (s : ExpState)
    (hpre : ∀ p ∈ pre, (fitter p.1).isOk = true)
    (hq : (fitter qid).isOk = false) :
    fitLayerE fitter (pre ++ (qid, ql) :: post) s =
      ({ (fitLayerE fitter pre s).1 with
          fitCount := bump (fitLayerE fitter pre s).1.fitCount qid }, true) ∧
    (fitLayerE fitter pre s).2 = false ∧
    (∀ learnerId, learnerId ∉ pre.map Prod.fst → alookup s.reg learnerId = none →
      alookup (fitLayerE fitter (pre ++ (qid, ql) :: post) s).1.reg learnerId
        = none) := by
  obtain ⟨h1, h2⟩ := fitLayerE_append_err fitter qid ql post hq pre s hpre
  refine ⟨h1, h2, ?_⟩
  intro learnerId hnmem hnone
  rw [h1]
  have := fitLayerE_lookup_not_mem fitter pre s learnerId hnmem
  rw [← hnone, ← this]

/-- Claim C6 counterexample: in a two-learner layer where the first fit raises, the
run is aborted, the second identity is never stored, and its fit is never invoked —
the failure is not isolated to the one subset as the claim states. -/
theorem fit_layer_failure_not_isolated :
    (fitLayerE fitterFailZero [([0], learnerBlank), ([1], learnerBlank)]
      initExpState).2 = true ∧
    alookup (fitLayerE fitterFailZero [([0], learnerBlank), ([1], learnerBlank)]
      initExpState).1.reg [1] = none ∧
    (fitLayerE fitterFailZero [([0], learnerBlank), ([1], learnerBlank)]
      initExpState).1.fitCount [1] = 0 := by
  refine ⟨rfl, rfl, rfl⟩

/-- Witness for C6 (amended): a concrete layer whose middle fit raises. -/
theorem fit_layer_failure_propagates_witness :
    fitLayerE fitterFailZero
        ([([1], learnerBlank)] ++ ([0], learnerBlank) :: [([2], learnerBlank)])
        initExpState =
      ({ (fitLayerE fitterFailZero [([1], learnerBlank)] initExpState).1 with
          fitCount := bump (fitLayerE fitterFailZero [([1], learnerBlank)]
            initExpState).1.fitCount [0] }, true) ∧
    (fitLayerE fitterFailZero [([1], learnerBlank)] initExpState).2 = false ∧
    (∀ learnerId, learnerId ∉ [([1], learnerBlank)].map Prod.fst →
      alookup initExpState.reg learnerId = none →
      alookup (fitLayerE fitterFailZero
        ([([1], learnerBlank)] ++ ([0], learnerBlank) :: [([2], learnerBlank)])
        initExpState).1.reg learnerId = none) :=
  fit_layer_failure_propagates fitterFailZero [([1], learnerBlank)] [0] learnerBlank
    [([2], learnerBlank)] initExpState (by decide) (by decide)

/-- Claim C10: `get_learner` never writes the registry, and `_fit_layer` stores an
entry only immediately after a successful fit: when the fit of `(qid, ql)` raises
after a successful fresh prefix, the failing identity has no registry entry, every
entry stored before the call is unchanged, and each prefix identity was stored. -/
theorem registry_insert_only_after_fit (r : Rover) (fitter : FitOracle)
    (pre : List (LearnerID × Learner)) (qid : LearnerID) (ql : Learner)
    (post : List (LearnerID × Learner)) (s : ExpState)
    (hpre : ∀ p ∈ pre, (fitter p.1).isOk = true)
    (hq : (fitter qid).isOk = false)
    (hprefresh : ∀ p ∈ pre, alookup s.reg p.1 = none)
    (hqfresh : alookup s.reg qid = none)
    (hqpre : qid ∉ pre.map Prod.fst) :
    (∀ (reg : Registry) (learnerId : LearnerID) (uc : Bool),
      (getLearnerS r reg learnerId uc).2 = reg) ∧
    alookup (fitLayerE fitter (pre ++ (qid, ql) :: post) s).1.reg qid = none ∧
    (∀ learnerId w, alookup s.reg learnerId = some w →
      alookup (fitLayerE fitter (pre ++ (qid, ql) :: post) s).1.reg learnerId
        = some w) ∧
    (∀ p ∈ pre,
      (alookup (fitLayerE fitter (pre ++ (qid, ql) :: post) s).1.reg p.1).isSome
        = true) := by
  obtain ⟨h1, h2⟩ := fitLayerE_append_err fitter qid ql post hq pre s hpre
  refine ⟨fun _ _ _ => rfl, ?_, ?_, ?_⟩
  · rw [h1]
    have := fitLayerE_lookup_not_mem fitter pre s qid hqpre
    rw [← hqfresh, ← this]
  · intro learnerId w hw
    have hnmem : learnerId ∉ pre.map Prod.fst := by
      intro hc
      obtain ⟨p, hp, hp1⟩ := List.mem_map.mp hc
      rw [← hp1, hprefresh p hp] at hw
      exact absurd hw (by simp)
    rw [h1]
    have := fitLayerE_lookup_not_mem fitter pre s learnerId hnmem
    rw [← hw, ← this]
  · intro p hp
    rw [h1]
    have := fitLayerE_mem_isSome fitter pre s hpre p hp
    exact this

/-- Witness for C10: a two-step layer whose second fit raises. -/
theorem registry_insert_only_after_fit_witness :
    (∀ (reg : Registry) (learnerId : LearnerID) (uc : Bool),
      (getLearnerS roverAB reg learnerId uc).2 = reg) ∧
    alookup (fitLayerE fitterFailZero
      ([([2], learnerBlank)] ++ ([0], learnerBlank) :: []) initExpState).1.reg [0]
      = none ∧
    (∀ learnerId w, alookup initExpState.reg learnerId = some w →
      alookup (fitLayerE fitterFailZero
        ([([2], learnerBlank)] ++ ([0], learnerBlank) :: []) initExpState).1.reg
        learnerId = some w) ∧
    (∀ p ∈ [([2], learnerBlank)],
      (alookup (fitLayerE fitterFailZero
        ([([2], learnerBlank)] ++ ([0], learnerBlank) :: []) initExpState).1.reg
        p.1).isSome = true) :=
  registry_insert_only_after_fit roverAB fitterFailZero [([2], learnerBlank)] [0]
    learnerBlank [] initExpState (by decide) (by decide) (by decide) (by decide)
    (by decide)

end Modrover
